import Mathlib

/-!
# The Isabelle application launcher (`Admin/Linux/Isabelle.c`)

A shallow embedding of the launcher's `main` and `fail`, together with the
C library operations they call, and the properties of the launcher contract.

Conventions of the embedding.

* A C string is a `String`; every character stands for one C `char`, so
  `strlen` is the number of characters.
* A cell of type `char *` is a `Ptr`: either never written since `malloc`
  (`uninit`), the null pointer, or a pointer to a string.
* The outcomes the program cannot decide itself (whether an allocation
  succeeds, whether `execvp` replaces the process image) are read from an
  environment `Env`.
* `argc` is the length of the argument vector, and `argv[argc]` is the null
  pointer. Counts and sizes are natural numbers: the hosting environment bounds
  an argument vector far below the ranges of `int` and `size_t`, so `argc + 1`
  and the byte count of the target path do not wrap around.
* A run is summarised by what it wrote to `stderr` (one entry for each call of
  `fprintf`), the calls of `execvp` it made, and how it ended.  Stores are
  bounds-checked: a store outside the block it addresses, or a null pointer
  used as a string, ends the run as `Ending.undefined`.
-/

namespace Isabelle

/-! ## Data model -/

/-- A value of type `char *` held in a heap cell. -/
inductive Ptr where
  | uninit
  | null
  | str (s : String)
  deriving DecidableEq, Repr

/-- How a run of the process ends. -/
inductive Ending where
  | replaced
  | exited (status : Int)
  | undefined
  deriving DecidableEq, Repr

/-- The observable record of a run: the outputs of the `fprintf (stderr, ...)` calls in
order, the `execvp (file, argv)` calls in order, and the way the run ended. -/
structure Run where
  stderr : List String
  execs : List (String × List Ptr)
  ending : Ending
  deriving DecidableEq, Repr

/-- The outcomes decided by the hosting environment: one flag for each allocation
of `main` (true when it succeeds), and the result of `execvp` for a given file and
argument vector (true when the process image is replaced, false when the call
returns). -/
structure Env where
  strdup_dcmd : Bool
  strdup_bcmd : Bool
  malloc_cmd_line : Bool
  malloc_cmd : Bool
  execvp : String → List Ptr → Bool

/-! ## C library operations -/

/-- The function `strlen`. -/
def strlen (s : String) : Nat := s.length

/-- The function `strdup`: a copy of the string, or `NULL` (`none`) when the allocation fails. -/
def strdup (ok : Bool) (s : String) : Option String :=
  if ok then some s else none

/-- Expansion of a `printf` format that uses only the `%s` directive. -/
def format : List Char → List String → List Char
  | '%' :: 's' :: rest, a :: args => a.toList ++ format rest args
  | c :: rest, args => c :: format rest args
  | [], _ => []

/-- The text produced by `printf`-style formatting of `fmt` with string arguments `args`. -/
def formatted (fmt : String) (args : List String) : String :=
  String.mk (format fmt.toList args)

/-- Modelled from the spec: the C library function `dirname` of `libgen.h`, which is not
part of the sources. It follows the standard path-splitting rules the specification
refers to (POSIX `dirname`): a null pointer or an empty string gives `.`; trailing
separators are removed; a path without a separator gives `.`; the last component and
the separators before it are removed; a path of separators only gives `/`. Where the
standard leaves the result to the implementation (exactly two leading separators) the
GNU C library keeps `//`, which is followed here. -/
def dirname (path : Option String) : String :=
  match path with
  | none => "."
  | some s =>
    let cs := s.toList
    let t := cs.rdropWhile (· == '/')
    if t = [] then
      if cs = [] then "." else if cs = ['/', '/'] then "//" else "/"
    else
      let u := t.rdropWhile (· != '/')
      if u = [] then "."
      else
        let v := u.rdropWhile (· == '/')
        if v = [] then (if u = ['/', '/'] then "//" else "/") else String.mk v

/-- Modelled from the spec: the C library function `basename` of `libgen.h` (the POSIX
version, selected by including `libgen.h`), which is not part of the sources: a null
pointer or an empty string gives `.`; a path of separators only gives `/`; otherwise
trailing separators are removed and the final path segment is returned. -/
def basename (path : Option String) : String :=
  match path with
  | none => "."
  | some s =>
    let cs := s.toList
    if cs = [] then "."
    else
      let t := cs.rdropWhile (· == '/')
      if t = [] then "/" else String.mk (t.rtakeWhile (· != '/'))

/-- A call `malloc (sizeof (char *) * n)`: a block of `n` pointer cells, none of them
written, or `NULL` (`none`) when the allocation fails. -/
def malloc_ptrs (ok : Bool) (n : Nat) : Option (List Ptr) :=
  if ok then some (List.replicate n Ptr.uninit) else none

/-- A call `malloc (n)` for a character buffer: the capacity of the block in bytes, or
`NULL` (`none`) when the allocation fails. -/
def malloc (ok : Bool) (n : Nat) : Option Nat :=
  if ok then some n else none

/-- A call `sprintf (buf, fmt, args)` into a buffer of `size` bytes: the formatted
string and its terminating NUL are written; `none` when they do not fit. -/
def sprintf (size : Nat) (fmt : String) (args : List String) : Option String :=
  let s := formatted fmt args
  if strlen s + 1 ≤ size then some s else none

/-- The assignment `block[i] = v`; `none` when `i` is outside the block. -/
def store (block : List Ptr) (i : Nat) (v : Ptr) : Option (List Ptr) :=
  if i < block.length then some (block.set i v) else none

/-- The value of `argv[i]`: a string for `i < argc`, the null pointer at `argc`. -/
def argv_at (argv : List String) (i : Nat) : Ptr :=
  match argv[i]? with
  | some s => Ptr.str s
  | none => Ptr.null

/-! ## The program -/

/-- The function `fail`: print the message and a newline on `stderr`, then `exit (2)`. -/
def fail (msg : String) : Run :=
  { stderr := [formatted "%s\n" [msg]], execs := [], ending := Ending.exited 2 }

/-- The loop `for (i = 1; i < argc; i++) cmd_line[i] = argv[i];`, by recursion on the
number of iterations still to run (`argc - i`), started at `i = 1`. -/
def copy_args (argv : List String) : Nat → Nat → List Ptr → Option (List Ptr)
  | 0, _, cmd_line => some cmd_line
  | k + 1, i, cmd_line =>
    match store cmd_line i (argv_at argv i) with
    | none => none
    | some cmd_line1 => copy_args argv k (i + 1) cmd_line1

/-- The function `main`, with `argc = argv.length`. -/
def main (env : Env) (argv : List String) : Run :=
  let argc := argv.length
  -- dcmd = strdup(argv[0]); dname = dirname(dcmd);
  -- bcmd = strdup(argv[0]); bname = basename(bcmd);
  match argv_at argv 0 with
  | Ptr.uninit => { stderr := [], execs := [], ending := Ending.undefined }
  | Ptr.null => { stderr := [], execs := [], ending := Ending.undefined }
  | Ptr.str argv0 =>
  let dcmd := strdup env.strdup_dcmd argv0
  let dname := dirname dcmd
  let bcmd := strdup env.strdup_bcmd argv0
  let bname := basename bcmd
  -- cmd_line = malloc(sizeof(char *) * (argc + 1));
  match malloc_ptrs env.malloc_cmd_line (argc + 1) with
  | none => fail "Failed to allocate command line"
  | some cmd_line =>
  -- cmd = cmd_line[0];
  let _cmd := cmd_line[0]?
  -- cmd = malloc(strlen(dname) + strlen(bname) + strlen("/lib/scripts/.run") + 1);
  match malloc env.malloc_cmd (strlen dname + strlen bname + strlen "/lib/scripts/.run" + 1) with
  | none => fail "Failed to allocate command name"
  | some size =>
  -- sprintf(cmd, "%s/lib/scripts/%s.run", dname, bname);
  match sprintf size "%s/lib/scripts/%s.run" [dname, bname] with
  | none => { stderr := [], execs := [], ending := Ending.undefined }
  | some cmd =>
  -- for (i = 1; i < argc; i++) cmd_line[i] = argv[i];
  match copy_args argv (argc - 1) 1 cmd_line with
  | none => { stderr := [], execs := [], ending := Ending.undefined }
  | some cmd_line1 =>
  -- cmd_line[argc] = NULL;
  match store cmd_line1 argc Ptr.null with
  | none => { stderr := [], execs := [], ending := Ending.undefined }
  | some cmd_line2 =>
  -- execvp(cmd, cmd_line);
  if env.execvp cmd cmd_line2 then
    { stderr := [], execs := [(cmd, cmd_line2)], ending := Ending.replaced }
  else
    -- fprintf(stderr, "Failed to execute application script \"%s\"\n", cmd); exit(2);
    { stderr := [formatted "Failed to execute application script \"%s\"\n" [cmd]],
      execs := [(cmd, cmd_line2)], ending := Ending.exited 2 }


/-- The environment in which every allocation succeeds and `execvp` has the result
`replaced` whatever the file and the vector. -/
def Env.ok (replaced : Bool) : Env :=
  { strdup_dcmd := true, strdup_bcmd := true, malloc_cmd_line := true, malloc_cmd := true,
    execvp := fun _ _ => replaced }

/-! ## Auxiliary facts -/

theorem formatted_fail (msg : String) : formatted "%s\n" [msg] = msg ++ "\n" := by
  apply String.ext
  simp [formatted, format]

theorem formatted_cmd (d b : String) :
    formatted "%s/lib/scripts/%s.run" [d, b] = d ++ "/lib/scripts/" ++ b ++ ".run" := by
  apply String.ext
  simp [formatted, format]

theorem formatted_exec (cmd : String) :
    formatted "Failed to execute application script \"%s\"\n" [cmd]
      = "Failed to execute application script \"" ++ cmd ++ "\"\n" := by
  apply String.ext
  simp [formatted, format]

theorem set_at_length (pre : List Ptr) (m v : Ptr) (tl : List Ptr) :
    (pre ++ m :: tl).set pre.length v = pre ++ v :: tl := by
  induction pre with
  | nil => rfl
  | cons p ps ih => simp [ih]

theorem copy_args_eq (argv : List String) (k : Nat) :
    ∀ (i : Nat) (pre mid post : List Ptr), pre.length = i → mid.length = k →
      i + k ≤ argv.length →
      copy_args argv k i (pre ++ mid ++ post)
        = some (pre ++ ((argv.drop i).take k).map Ptr.str ++ post) := by
  induction k with
  | zero =>
    intro i pre mid post _ hm _
    have : mid = [] := List.length_eq_zero.mp hm
    simp [copy_args, this]
  | succ k ih =>
    intro i pre mid post hp hm hle
    obtain ⟨m, mid1, rfl⟩ : ∃ m mid1, mid = m :: mid1 := by
      cases mid with
      | nil => simp at hm
      | cons m mid1 => exact ⟨m, mid1, rfl⟩
    have hi : i < argv.length := by omega
    have hat : argv_at argv i = Ptr.str argv[i] := by
      simp [argv_at, List.getElem?_eq_getElem hi]
    have hst : store (pre ++ (m :: mid1) ++ post) i (argv_at argv i)
        = some ((pre ++ [Ptr.str argv[i]]) ++ mid1 ++ post) := by
      have hlen : i < (pre ++ (m :: mid1) ++ post).length := by simp; omega
      rw [store, if_pos hlen, hat]
      subst hp
      simp [set_at_length]
    have hdrop : argv.drop i = argv[i] :: argv.drop (i + 1) := List.drop_eq_getElem_cons hi
    rw [copy_args, hst]
    simp only
    rw [ih (i + 1) (pre ++ [Ptr.str argv[i]]) mid1 post (by simp [hp]) (by simpa using hm) (by omega)]
    rw [hdrop]
    simp only [List.take_succ_cons, List.map_cons, List.append_assoc, List.cons_append,
      List.nil_append]

theorem strlen_cmd (d b : String) :
    strlen (d ++ "/lib/scripts/" ++ b ++ ".run")
      = strlen d + strlen b + strlen "/lib/scripts/.run" := by
  have h1 : ("/lib/scripts/" : String).length = 13 := rfl
  have h2 : (".run" : String).length = 4 := rfl
  have h3 : ("/lib/scripts/.run" : String).length = 17 := rfl
  simp only [strlen, String.length_append, h1, h2, h3]
  omega

theorem fill_cmd_line (a : String) (rest : List String) :
    (copy_args (a :: rest) ((a :: rest).length - 1) 1
        (List.replicate ((a :: rest).length + 1) Ptr.uninit)).bind
      (fun cmd_line1 => store cmd_line1 (a :: rest).length Ptr.null)
      = some (Ptr.uninit :: rest.map Ptr.str ++ [Ptr.null]) := by
  have hrep : List.replicate ((a :: rest).length + 1) Ptr.uninit
      = [Ptr.uninit] ++ List.replicate rest.length Ptr.uninit ++ [Ptr.uninit] := by
    rw [List.length_cons, List.replicate_succ', List.replicate_succ]
    rfl
  have hk : (a :: rest).length - 1 = rest.length := by simp
  rw [hrep, hk, copy_args_eq (a :: rest) rest.length 1 [Ptr.uninit]
    (List.replicate rest.length Ptr.uninit) [Ptr.uninit] rfl (by simp) (by simp; omega)]
  have hlen : (a :: rest).length = (Ptr.uninit :: rest.map Ptr.str).length := by simp
  have hlt : (a :: rest).length < ([Ptr.uninit] ++ List.map Ptr.str rest ++ [Ptr.uninit]).length := by
    simp
  simp only [Option.some_bind, List.drop_succ_cons, List.drop_zero, List.take_length, store,
    if_pos hlt]
  rw [hlen]
  exact congrArg some (set_at_length (Ptr.uninit :: rest.map Ptr.str) Ptr.uninit Ptr.null [])

theorem main_cons (env : Env) (a : String) (rest : List String) (cmd : String) (v : List Ptr)
    (hcmd : cmd = dirname (strdup env.strdup_dcmd a) ++ "/lib/scripts/"
      ++ basename (strdup env.strdup_bcmd a) ++ ".run")
    (hv : v = Ptr.uninit :: rest.map Ptr.str ++ [Ptr.null]) :
    main env (a :: rest) =
      if env.malloc_cmd_line = true then
        if env.malloc_cmd = true then
          if env.execvp cmd v = true then
            { stderr := [], execs := [(cmd, v)], ending := Ending.replaced }
          else
            { stderr := ["Failed to execute application script \"" ++ cmd ++ "\"\n"],
              execs := [(cmd, v)], ending := Ending.exited 2 }
        else
          { stderr := ["Failed to allocate command name\n"], execs := [],
            ending := Ending.exited 2 }
      else
        { stderr := ["Failed to allocate command line\n"], execs := [],
          ending := Ending.exited 2 } := by
  have hfill := fill_cmd_line a rest
  have hfit : strlen cmd + 1 ≤ strlen (dirname (strdup env.strdup_dcmd a))
      + strlen (basename (strdup env.strdup_bcmd a)) + strlen "/lib/scripts/.run" + 1 := by
    rw [hcmd, strlen_cmd]
  have hf1 : fail "Failed to allocate command line"
      = { stderr := ["Failed to allocate command line\n"], execs := [],
          ending := Ending.exited 2 } := by
    rw [fail, formatted_fail]; rfl
  have hf2 : fail "Failed to allocate command name"
      = { stderr := ["Failed to allocate command name\n"], execs := [],
          ending := Ending.exited 2 } := by
    rw [fail, formatted_fail]; rfl
  unfold main
  simp only [argv_at, List.getElem?_cons_zero, malloc_ptrs, malloc, sprintf, formatted_cmd,
    formatted_exec, hf1, hf2]
  by_cases h1 : env.malloc_cmd_line = true
  · by_cases h2 : env.malloc_cmd = true
    · simp only [h1, h2, if_true, ← hcmd, if_pos hfit]
      cases hc : copy_args (a :: rest) ((a :: rest).length - 1) 1
          (List.replicate ((a :: rest).length + 1) Ptr.uninit) with
      | none =>
        rw [hc] at hfill
        exact absurd hfill (by simp)
      | some cl1 =>
        rw [hc, Option.some_bind] at hfill
        simp only [hfill, ← hv]
    · simp only [h1, h2, if_true]
      simp
  · simp only [h1]
    simp

theorem toList_ne_nil {P : String} (hne : P ≠ "") : P.toList ≠ [] := by
  intro h
  exact hne (String.ext h)

theorem strip_slashes_eq_self {cs : List Char} (hend : cs.getLast? ≠ some '/') :
    cs.rdropWhile (· == '/') = cs := by
  rw [List.rdropWhile_eq_self_iff]
  intro hl hp
  apply hend
  rw [List.getLast?_eq_getLast cs hl]
  simpa using hp

theorem getLast?_ne_slash {cs : List Char} (hns : '/' ∉ cs) : cs.getLast? ≠ some '/' := by
  intro h
  exact hns (List.mem_of_getLast?_eq_some h)

theorem dirname_no_separator {P : String} (hne : P ≠ "") (hns : '/' ∉ P.toList) :
    dirname (some P) = "." := by
  have ht : P.toList.rdropWhile (· == '/') = P.toList :=
    strip_slashes_eq_self (getLast?_ne_slash hns)
  have hu : P.toList.rdropWhile (· != '/') = [] := by
    rw [List.rdropWhile_eq_nil_iff]
    intro x hx
    have : x ≠ '/' := fun h => hns (h ▸ hx)
    simpa using this
  simp only [dirname, ht, hu, if_neg (toList_ne_nil hne), if_true]

theorem basename_no_separator {P : String} (hne : P ≠ "") (hns : '/' ∉ P.toList) :
    basename (some P) = P := by
  have ht : P.toList.rdropWhile (· == '/') = P.toList :=
    strip_slashes_eq_self (getLast?_ne_slash hns)
  have hu : P.toList.rtakeWhile (· != '/') = P.toList := by
    rw [List.rtakeWhile_eq_self_iff]
    intro x hx
    have : x ≠ '/' := fun h => hns (h ▸ hx)
    simpa using this
  simp only [basename, ht, hu, if_neg (toList_ne_nil hne)]
  rfl

theorem toList_append_slash (P : String) : (P ++ "/").toList = P.toList ++ ['/'] := by
  show (P ++ "/").data = P.data ++ ['/']
  rw [String.data_append]

theorem dirname_trailing_separator {P : String} (hne : P ≠ "")
    (hend : P.toList.getLast? ≠ some '/') :
    dirname (some (P ++ "/")) = dirname (some P) := by
  have ht : P.toList.rdropWhile (· == '/') = P.toList := strip_slashes_eq_self hend
  have ht1 : (P.toList ++ ['/']).rdropWhile (· == '/') = P.toList := by
    rw [List.rdropWhile_concat_pos _ _ _ (by simp), ht]
  simp only [dirname, toList_append_slash, ht, ht1, if_neg (toList_ne_nil hne)]

theorem basename_trailing_separator {P : String} (hne : P ≠ "")
    (hend : P.toList.getLast? ≠ some '/') :
    basename (some (P ++ "/")) = basename (some P) := by
  have ht : P.toList.rdropWhile (· == '/') = P.toList := strip_slashes_eq_self hend
  have ht1 : (P.toList ++ ['/']).rdropWhile (· == '/') = P.toList := by
    rw [List.rdropWhile_concat_pos _ _ _ (by simp), ht]
  have hne1 : P.toList ++ ['/'] ≠ [] := by simp
  simp only [basename, toList_append_slash, ht, ht1, if_neg (toList_ne_nil hne), if_neg hne1]

theorem basename_no_slash_of_end {P : String} (hne : P ≠ "")
    (hend : P.toList.getLast? ≠ some '/') :
    '/' ∉ (basename (some P)).toList := by
  have ht : P.toList.rdropWhile (· == '/') = P.toList := strip_slashes_eq_self hend
  simp only [basename, ht, if_neg (toList_ne_nil hne)]
  intro hmem
  have := List.mem_rtakeWhile_imp hmem
  simp at this


/-! ## The launcher contract -/

/-- C1: evaluation of `main` on the argument vector of the specification's scenario, all
allocations succeeding. The file passed to `execvp` is the target path, and elements 1
and 2 of the vector are the user arguments, but element 0 of the vector is the cell
`cmd_line[0]`, which `main` reads and never writes: it is not the target path. -/
theorem C1_vector_head_never_written :
    (main (Env.ok true) ["/opt/app/bin/myapp", "--flag", "value"]).execs
        = [("/opt/app/bin/lib/scripts/myapp.run",
            [Ptr.uninit, Ptr.str "--flag", Ptr.str "value", Ptr.null])]
      ∧ (main (Env.ok true) ["/opt/app/bin/myapp", "--flag", "value"]).execs
        ≠ [("/opt/app/bin/lib/scripts/myapp.run",
            [Ptr.str "/opt/app/bin/lib/scripts/myapp.run", Ptr.str "--flag",
              Ptr.str "value", Ptr.null])] := by
  decide

/-- C2: when both copies of the invocation path `P` are made, every file that `main`
passes to `execvp` is `dirname P ++ "/lib/scripts/" ++ basename P ++ ".run"`, and when the two
blocks are allocated as well `main` passes exactly this one file. -/
theorem C2_target_path_composition (env : Env) (P : String) (rest : List String)
    (hd : env.strdup_dcmd = true) (hb : env.strdup_bcmd = true) :
    (∀ call ∈ (main env (P :: rest)).execs,
        call.1 = dirname (some P) ++ "/lib/scripts/" ++ basename (some P) ++ ".run")
      ∧ (env.malloc_cmd_line = true → env.malloc_cmd = true →
          (main env (P :: rest)).execs.map Prod.fst
            = [dirname (some P) ++ "/lib/scripts/" ++ basename (some P) ++ ".run"]) := by
  have hmain := main_cons env P rest _ _ rfl rfl
  simp only [hd, hb, strdup, if_true] at hmain
  rw [hmain]
  constructor
  · intro call hcall
    split_ifs at hcall <;> simp_all
  · intro h1 h2
    rw [if_pos h1, if_pos h2]
    split_ifs <;> rfl

theorem C2_target_path_composition_witness :
    (Env.ok false).strdup_dcmd = true ∧ (Env.ok false).strdup_bcmd = true
      ∧ (main (Env.ok false) ["/"]).execs.map Prod.fst = ["//lib/scripts//.run"] :=
  ⟨rfl, rfl, (C2_target_path_composition (Env.ok false) "/" [] rfl rfl).2 rfl rfl⟩

/-- C3: for an argument vector `P :: rest`, when the four allocations succeed and `execvp`
returns, `main` has called `execvp` exactly once, has written exactly one record to `stderr`,
the text `Failed to execute application script "<target_path>"` followed by a newline with
the target path that was passed to `execvp`, and has ended with `exit (2)`. -/
theorem C3_exec_failure_report (env : Env) (P : String) (rest : List String)
    (hd : env.strdup_dcmd = true) (hb : env.strdup_bcmd = true)
    (hl : env.malloc_cmd_line = true) (hc : env.malloc_cmd = true)
    (hx : env.execvp (dirname (some P) ++ "/lib/scripts/" ++ basename (some P) ++ ".run")
      (Ptr.uninit :: rest.map Ptr.str ++ [Ptr.null]) = false) :
    main env (P :: rest) =
      { stderr := ["Failed to execute application script \""
          ++ (dirname (some P) ++ "/lib/scripts/" ++ basename (some P) ++ ".run") ++ "\"\n"],
        execs := [(dirname (some P) ++ "/lib/scripts/" ++ basename (some P) ++ ".run",
          Ptr.uninit :: rest.map Ptr.str ++ [Ptr.null])],
        ending := Ending.exited 2 } := by
  have hmain := main_cons env P rest _ _ rfl rfl
  simp only [hd, hb, strdup, if_true] at hmain
  rw [hmain, if_pos hl, if_pos hc, hx]
  rfl

theorem C3_exec_failure_report_witness :
    (Env.ok false).strdup_dcmd = true ∧ (Env.ok false).strdup_bcmd = true
      ∧ (Env.ok false).malloc_cmd_line = true ∧ (Env.ok false).malloc_cmd = true
      ∧ (Env.ok false).execvp "/opt/app/bin/lib/scripts/myapp.run"
          [Ptr.uninit, Ptr.str "--flag", Ptr.null] = false
      ∧ main (Env.ok false) ["/opt/app/bin/myapp", "--flag"] =
        { stderr := ["Failed to execute application script \"/opt/app/bin/lib/scripts/myapp.run\"\n"],
          execs := [("/opt/app/bin/lib/scripts/myapp.run",
            [Ptr.uninit, Ptr.str "--flag", Ptr.null])],
          ending := Ending.exited 2 } :=
  ⟨rfl, rfl, rfl, rfl, rfl,
    C3_exec_failure_report (Env.ok false) "/opt/app/bin/myapp" ["--flag"] rfl rfl rfl rfl rfl⟩

/-- C4: evaluation of `main` when the first `strdup` fails and every other allocation
succeeds. The null result is not tested: `dirname` turns it into `.`, nothing is written to
`stderr`, and `execvp` is called (here it replaces the process image), whereas a failure of
either `malloc` ends the run in `fail`. -/
theorem C4_strdup_failure_unchecked :
    main { strdup_dcmd := false, strdup_bcmd := true, malloc_cmd_line := true,
           malloc_cmd := true, execvp := fun _ _ => true } ["/opt/app/bin/myapp"]
      = { stderr := [],
          execs := [("./lib/scripts/myapp.run", [Ptr.uninit, Ptr.null])],
          ending := Ending.replaced } := by
  decide

/-- C5: for a non-empty invocation path `P` without a separator, the directory component is
`.` and, when the allocations succeed, the file passed to `execvp` is
`"./lib/scripts/" ++ P ++ ".run"`; by contrast the absolute path `/opt/app/bin/myapp` gives
`/opt/app/bin/lib/scripts/myapp.run`. -/
theorem C5_bare_name_uses_dot (env : Env) (P : String) (rest : List String)
    (hne : P ≠ "") (hns : '/' ∉ P.toList)
    (hd : env.strdup_dcmd = true) (hb : env.strdup_bcmd = true)
    (hl : env.malloc_cmd_line = true) (hc : env.malloc_cmd = true) :
    dirname (some P) = "."
      ∧ (main env (P :: rest)).execs.map Prod.fst = ["./lib/scripts/" ++ P ++ ".run"]
      ∧ (main env ("/opt/app/bin/myapp" :: rest)).execs.map Prod.fst
          = ["/opt/app/bin/lib/scripts/myapp.run"] := by
  have hdir := dirname_no_separator hne hns
  have hbase := basename_no_separator hne hns
  refine ⟨hdir, ?_, ?_⟩
  · have hmain := main_cons env P rest _ _ rfl rfl
    simp only [hd, hb, strdup, if_true, hdir, hbase] at hmain
    rw [hmain, if_pos hl, if_pos hc]
    have hlit : ("." : String) ++ "/lib/scripts/" = "./lib/scripts/" := by decide
    split_ifs <;> simp only [List.map_cons, List.map_nil, hlit]
  · have hmain := main_cons env "/opt/app/bin/myapp" rest _ _ rfl rfl
    simp only [hd, hb, strdup, if_true] at hmain
    rw [hmain, if_pos hl, if_pos hc]
    have hlit : dirname (some "/opt/app/bin/myapp") ++ "/lib/scripts/"
        ++ basename (some "/opt/app/bin/myapp") ++ ".run"
        = "/opt/app/bin/lib/scripts/myapp.run" := by decide
    split_ifs <;> simp only [List.map_cons, List.map_nil, hlit]

theorem C5_bare_name_uses_dot_witness :
    ("myapp" : String) ≠ "" ∧ '/' ∉ ("myapp" : String).toList
      ∧ dirname (some "myapp") = "."
      ∧ (main (Env.ok true) ["myapp"]).execs.map Prod.fst = ["./lib/scripts/myapp.run"] :=
  ⟨by decide, by decide,
    (C5_bare_name_uses_dot (Env.ok true) "myapp" [] (by decide) (by decide)
      rfl rfl rfl rfl).1,
    (C5_bare_name_uses_dot (Env.ok true) "myapp" [] (by decide) (by decide)
      rfl rfl rfl rfl).2.1⟩

/-- C6: for an argument vector of length `n ≥ 1`, when the two blocks are allocated, the
vector passed to `execvp` has `n + 1` cells, cell `i` points to `argv[i]` for every
`1 ≤ i < n`, and cell `n` is the null pointer. -/
theorem C6_arguments_forwarded_verbatim (env : Env) (argv : List String)
    (hn : 1 ≤ argv.length)
    (hl : env.malloc_cmd_line = true) (hc : env.malloc_cmd = true) :
    ∃ cmd v, (main env argv).execs = [(cmd, v)]
      ∧ v.length = argv.length + 1
      ∧ (∀ i, 1 ≤ i → ∀ hi : i < argv.length, v[i]? = some (Ptr.str argv[i]))
      ∧ v[argv.length]? = some Ptr.null := by
  obtain ⟨a, rest, rfl⟩ : ∃ a rest, argv = a :: rest := by
    cases argv with
    | nil => simp at hn
    | cons a rest => exact ⟨a, rest, rfl⟩
  have hmain := main_cons env a rest _ _ rfl rfl
  refine ⟨dirname (strdup env.strdup_dcmd a) ++ "/lib/scripts/"
      ++ basename (strdup env.strdup_bcmd a) ++ ".run",
    Ptr.uninit :: rest.map Ptr.str ++ [Ptr.null], ?_, ?_, ?_, ?_⟩
  · rw [hmain, if_pos hl, if_pos hc]
    split_ifs <;> rfl
  · simp
  · intro i h1 hi
    obtain ⟨j, rfl⟩ : ∃ j, i = j + 1 := ⟨i - 1, by omega⟩
    have hj : j < rest.length := by simpa using hi
    simp [List.getElem?_append_left, hj]
  · have hlen : (a :: rest).length = (Ptr.uninit :: rest.map Ptr.str).length := by simp
    rw [hlen, List.getElem?_append_right (Nat.le_refl _)]
    simp

theorem C6_arguments_forwarded_verbatim_witness :
    1 ≤ ["/opt/app/bin/myapp", "--flag", "value"].length
      ∧ (Env.ok true).malloc_cmd_line = true ∧ (Env.ok true).malloc_cmd = true
      ∧ ∃ cmd v, (main (Env.ok true) ["/opt/app/bin/myapp", "--flag", "value"]).execs
            = [(cmd, v)]
          ∧ v.length = ["/opt/app/bin/myapp", "--flag", "value"].length + 1
          ∧ (∀ i, 1 ≤ i → ∀ hi : i < ["/opt/app/bin/myapp", "--flag", "value"].length,
              v[i]? = some (Ptr.str ["/opt/app/bin/myapp", "--flag", "value"][i]))
          ∧ v[["/opt/app/bin/myapp", "--flag", "value"].length]? = some Ptr.null :=
  ⟨by decide, rfl, rfl,
    C6_arguments_forwarded_verbatim (Env.ok true) ["/opt/app/bin/myapp", "--flag", "value"]
      (by decide) rfl rfl⟩

/-- C7 (as stated, refuted): on the empty argument vector `argv[0]` is the null pointer, and
the run of `main` does not reach a defined outcome. -/
theorem C7_empty_vector_not_guarded :
    argv_at [] 0 = Ptr.null ∧ ¬ (main (Env.ok true) []).ending ≠ Ending.undefined := by
  decide

/-- C7 (amended): `main` reads `argv[0]` without a guard, so a run has no defined outcome
exactly when the argument vector is empty, whatever the environment; with at least one
element the outcome is defined. -/
theorem C7_defined_iff_nonempty (env : Env) (argv : List String) :
    (main env argv).ending = Ending.undefined ↔ argv = [] := by
  cases argv with
  | nil => simp [main, argv_at]
  | cons a rest =>
    rw [main_cons env a rest _ _ rfl rfl]
    simp only [reduceCtorEq, iff_false]
    split_ifs <;> simp

/-- C8: for a non-empty argument vector and every environment, a run of `main` ends in one
of two ways: the process image is replaced after a single call of `execvp` and nothing was
written to `stderr`, or the process exits with status 2 after writing exactly one record to
`stderr`, a diagnostic followed by a newline, and after at most one call of `execvp`. -/
theorem C8_replaced_or_exit_two (env : Env) (argv : List String) (hne : argv ≠ []) :
    ((main env argv).ending = Ending.replaced ∧ (main env argv).stderr = []
        ∧ (main env argv).execs.length = 1)
      ∨ ((main env argv).ending = Ending.exited 2
        ∧ (main env argv).execs.length ≤ 1
        ∧ ∃ msg, (main env argv).stderr = [msg ++ "\n"]
          ∧ (msg = "Failed to allocate command line"
            ∨ msg = "Failed to allocate command name"
            ∨ ∃ cmd v, (main env argv).execs = [(cmd, v)]
                ∧ msg = "Failed to execute application script \"" ++ cmd ++ "\"")) := by
  obtain ⟨a, rest, rfl⟩ : ∃ a rest, argv = a :: rest := by
    cases argv with
    | nil => exact absurd rfl hne
    | cons a rest => exact ⟨a, rest, rfl⟩
  rw [main_cons env a rest _ _ rfl rfl]
  by_cases hl : env.malloc_cmd_line = true
  · by_cases hc : env.malloc_cmd = true
    · rw [if_pos hl, if_pos hc]
      split_ifs
      · exact Or.inl ⟨rfl, rfl, rfl⟩
      · refine Or.inr ⟨rfl, Nat.le_refl _, _, ?_, Or.inr (Or.inr ⟨_, _, rfl, rfl⟩)⟩
        simp only [String.append_assoc]
        rfl
    · rw [if_pos hl, if_neg hc]
      exact Or.inr ⟨rfl, Nat.zero_le _, "Failed to allocate command name", rfl,
        Or.inr (Or.inl rfl)⟩
  · rw [if_neg hl]
    exact Or.inr ⟨rfl, Nat.zero_le _, "Failed to allocate command line", rfl, Or.inl rfl⟩

theorem C8_replaced_or_exit_two_witness :
    ["myapp"] ≠ ([] : List String)
      ∧ (((main (Env.ok false) ["myapp"]).ending = Ending.replaced
          ∧ (main (Env.ok false) ["myapp"]).stderr = []
          ∧ (main (Env.ok false) ["myapp"]).execs.length = 1)
        ∨ ((main (Env.ok false) ["myapp"]).ending = Ending.exited 2
          ∧ (main (Env.ok false) ["myapp"]).execs.length ≤ 1
          ∧ ∃ msg, (main (Env.ok false) ["myapp"]).stderr = [msg ++ "\n"]
            ∧ (msg = "Failed to allocate command line"
              ∨ msg = "Failed to allocate command name"
              ∨ ∃ cmd v, (main (Env.ok false) ["myapp"]).execs = [(cmd, v)]
                  ∧ msg = "Failed to execute application script \"" ++ cmd ++ "\""))) :=
  ⟨by decide, C8_replaced_or_exit_two (Env.ok false) ["myapp"] (by decide)⟩

/-- C9: for a non-empty invocation path `P` that does not end in a separator, `P ++ "/"` has
the same directory component and the same name component as `P`, the name component holds
no separator, the target path is the same, and the whole run of `main` is the same. -/
theorem C9_trailing_separator_ignored (env : Env) (P : String) (rest : List String)
    (hne : P ≠ "") (hend : P.toList.getLast? ≠ some '/') :
    dirname (some (P ++ "/")) = dirname (some P)
      ∧ basename (some (P ++ "/")) = basename (some P)
      ∧ '/' ∉ (basename (some (P ++ "/"))).toList
      ∧ formatted "%s/lib/scripts/%s.run" [dirname (some (P ++ "/")), basename (some (P ++ "/"))]
          = formatted "%s/lib/scripts/%s.run" [dirname (some P), basename (some P)]
      ∧ main env ((P ++ "/") :: rest) = main env (P :: rest) := by
  have hdir := dirname_trailing_separator hne hend
  have hbase := basename_trailing_separator hne hend
  refine ⟨hdir, hbase, ?_, ?_, ?_⟩
  · rw [hbase]
    exact basename_no_slash_of_end hne hend
  · rw [hdir, hbase]
  · have hd : dirname (strdup env.strdup_dcmd (P ++ "/")) = dirname (strdup env.strdup_dcmd P) := by
      cases env.strdup_dcmd
      · rfl
      · exact hdir
    have hb : basename (strdup env.strdup_bcmd (P ++ "/"))
        = basename (strdup env.strdup_bcmd P) := by
      cases env.strdup_bcmd
      · rfl
      · exact hbase
    rw [main_cons env (P ++ "/") rest _ _ rfl rfl, main_cons env P rest _ _ rfl rfl, hd, hb]

theorem C9_trailing_separator_ignored_witness :
    ("/usr/bin/foo" : String) ≠ "" ∧ ("/usr/bin/foo" : String).toList.getLast? ≠ some '/'
      ∧ dirname (some "/usr/bin/foo/") = dirname (some "/usr/bin/foo")
      ∧ basename (some "/usr/bin/foo/") = basename (some "/usr/bin/foo")
      ∧ '/' ∉ (basename (some "/usr/bin/foo/")).toList
      ∧ formatted "%s/lib/scripts/%s.run"
            [dirname (some "/usr/bin/foo/"), basename (some "/usr/bin/foo/")]
          = formatted "%s/lib/scripts/%s.run"
            [dirname (some "/usr/bin/foo"), basename (some "/usr/bin/foo")]
      ∧ main (Env.ok true) ["/usr/bin/foo/"] = main (Env.ok true) ["/usr/bin/foo"] :=
  ⟨by decide, by decide,
    C9_trailing_separator_ignored (Env.ok true) "/usr/bin/foo" [] (by decide) (by decide)⟩

/-- C10: for every directory component, name component and argument vector with
`argc ≥ 1`, the formatted target path and its terminating NUL take exactly the number of
bytes requested for `cmd`, so the checked `sprintf` succeeds; the loop and the final
assignment store only inside the block of `argc + 1` cells allocated for `cmd_line`; and no
run of `main` ends by a store outside a block. -/
theorem C10_stores_stay_in_bounds (env : Env) (dname bname : String) (argv : List String)
    (hn : 1 ≤ argv.length) :
    strlen (formatted "%s/lib/scripts/%s.run" [dname, bname]) + 1
        = strlen dname + strlen bname + strlen "/lib/scripts/.run" + 1
      ∧ sprintf (strlen dname + strlen bname + strlen "/lib/scripts/.run" + 1)
          "%s/lib/scripts/%s.run" [dname, bname]
          = some (formatted "%s/lib/scripts/%s.run" [dname, bname])
      ∧ (∃ cmd_line cmd_line1 cmd_line2,
          malloc_ptrs true (argv.length + 1) = some cmd_line
            ∧ cmd_line.length = argv.length + 1
            ∧ copy_args argv (argv.length - 1) 1 cmd_line = some cmd_line1
            ∧ store cmd_line1 argv.length Ptr.null = some cmd_line2)
      ∧ (main env argv).ending ≠ Ending.undefined := by
  obtain ⟨a, rest, rfl⟩ : ∃ a rest, argv = a :: rest := by
    cases argv with
    | nil => simp at hn
    | cons a rest => exact ⟨a, rest, rfl⟩
  have hsize : strlen (formatted "%s/lib/scripts/%s.run" [dname, bname]) + 1
      = strlen dname + strlen bname + strlen "/lib/scripts/.run" + 1 := by
    rw [formatted_cmd, strlen_cmd]
  refine ⟨hsize, ?_, ?_, ?_⟩
  · rw [sprintf]
    exact if_pos (Nat.le_of_eq hsize)
  · have hfill := fill_cmd_line a rest
    cases hcopy : copy_args (a :: rest) ((a :: rest).length - 1) 1
        (List.replicate ((a :: rest).length + 1) Ptr.uninit) with
    | none =>
      rw [hcopy] at hfill
      exact absurd hfill (by simp)
    | some cmd_line1 =>
      rw [hcopy, Option.some_bind] at hfill
      exact ⟨_, cmd_line1, _, rfl, by simp, hcopy, hfill⟩
  · rw [main_cons env a rest _ _ rfl rfl]
    split_ifs <;> simp

theorem C10_stores_stay_in_bounds_witness :
    1 ≤ ["/opt/app/bin/myapp", "--flag"].length
      ∧ strlen (formatted "%s/lib/scripts/%s.run" ["/opt/app/bin", "myapp"]) + 1
          = strlen "/opt/app/bin" + strlen "myapp" + strlen "/lib/scripts/.run" + 1
      ∧ (main (Env.ok true) ["/opt/app/bin/myapp", "--flag"]).ending ≠ Ending.undefined :=
  ⟨by decide,
    (C10_stores_stay_in_bounds (Env.ok true) "/opt/app/bin" "myapp"
      ["/opt/app/bin/myapp", "--flag"] (by decide)).1,
    (C10_stores_stay_in_bounds (Env.ok true) "/opt/app/bin" "myapp"
      ["/opt/app/bin/myapp", "--flag"] (by decide)).2.2.2⟩

end Isabelle
